import Mathlib

/-!
Verification development for the sn_routing message-routing core.

Names are 256-bit identifiers; we embed them as natural numbers and XOR
distance as `Nat.xor`.  Section prefixes are bit sequences (most significant
bit first), embedded as `List Bool`.  The delivery-group selector
(`src/delivery_group.rs`), the legacy group-key merge
(`src/messages/get_group_key_response.rs`), the adult state handlers
(`src/states/adult/mod.rs`) and the first-node genesis
(`src/node/stage/mod.rs`) are translated below.  Containers: `BTreeMap`
becomes an association list ordered by key, iteration order preserved;
a stable sort (`sorted_by` of itertools) becomes `List.insertionSort`.
Operations provided by modules absent from the sources (the prefix algebra of
the `xor_name` crate and the `SectionMap` queries) are modelled from the
specification text and marked as such.
-/

/-- A 256-bit identifier, embedded as a natural number below `2 ^ NAME_BITS`. -/
abbrev XorName := Nat

/-- Bit width of names. -/
def NAME_BITS : Nat := 256

/-- Modelled from the spec: `cmp_distance(t, a, b)` orders `a`, `b` by
XOR-distance to `t` (the `xor_name` crate is not among the sources).  Ties on
distinct names are impossible because XOR with a fixed target is injective. -/
def cmp_distance (target lhs rhs : XorName) : Ordering :=
  compare (target ^^^ lhs) (target ^^^ rhs)

/-- A section prefix: an ordered bit sequence, most significant bit first
(the field `prefix` of the source is rendered `pfx`, `prefix` being reserved
in Lean). -/
abbrev Pfx := List Bool

/-- Length of the common leading run of two bit sequences. -/
def commonPrefixLen : List Bool → List Bool → Nat
  | a :: as_, b :: bs => if a = b then commonPrefixLen as_ bs + 1 else 0
  | _, _ => 0

/-- Modelled from the spec: `is_neighbor(p, q)` is true iff neither contains
the other and their highest differing bit is at position `min(|p|,|q|) - 1`
(the `Prefix` type of the `xor_name` crate is not among the sources). -/
def is_neighbour (p q : Pfx) : Bool :=
  let m := min p.length q.length
  decide (0 < m) && decide (commonPrefixLen p q = m - 1)

/-- Numeric value of a bit sequence, most significant bit first. -/
def natOfBits (l : List Bool) : Nat :=
  l.foldl (fun acc b => 2 * acc + (if b then 1 else 0)) 0

/-- Modelled from the spec: the centre of the region of names compatible with
a prefix, used by `SectionMap::closest` ("XOR of target against each prefix's
centre"); the midpoint of the interval of names whose leading bits equal the
prefix. -/
def centre (p : Pfx) : XorName :=
  if p.length < NAME_BITS then
    natOfBits p * 2 ^ (NAME_BITS - p.length) + 2 ^ (NAME_BITS - p.length - 1)
  else
    natOfBits p

/-- Lexicographic comparison of bit sequences (`false < true`). -/
def cmpBits : List Bool → List Bool → Ordering
  | [], [] => .eq
  | [], _ :: _ => .lt
  | _ :: _, [] => .gt
  | a :: as_, b :: bs => (compare a b).then (cmpBits as_ bs)

/-- Modelled from the spec: the section-distance metric of
`SectionMap::closest` and `SectionMap::sorted_by_distance_to` — XOR of the
target against each prefix's centre, tie-break by longer prefix, then
lexicographic. -/
def cmpPfxDistance (target : XorName) (p q : Pfx) : Ordering :=
  (compare (target ^^^ centre p) (target ^^^ centre q)).then
    ((compare q.length p.length).then (cmpBits p q))

/-- A network peer: name plus transport address (the address is opaque here). -/
structure Peer where
  name : XorName
  addr : Nat
deriving DecidableEq, Repr

/-- The committee identity of a section: its prefix and its elders, a
`BTreeMap<XorName, Peer>` rendered as an association list ordered by key. -/
structure EldersInfo where
  pfx : Pfx
  elders : List (XorName × Peer)
deriving DecidableEq, Repr

/-- A BLS section signature over a payload: the signing public key and the
combined signature (both opaque here). -/
structure Proof where
  public_key : Nat
  signature : Nat
deriving DecidableEq, Repr

/-- A value together with the section signature that authenticates it. -/
structure Proven (α : Type) where
  value : α
  proof : Proof
deriving DecidableEq, Repr

/-- Modelled from the spec: the `SectionMap` — our own committee (with its
proof) plus the known neighbour committees (the `section` module is not among
the sources; `delivery_group.rs` only consumes its queries). -/
structure SectionMap where
  our : Proven EldersInfo
  neighbors : List (Proven EldersInfo)
deriving DecidableEq, Repr

/-- All known sections: ours first, then the neighbours. -/
def SectionMap.all (sm : SectionMap) : List EldersInfo :=
  sm.our.value :: sm.neighbors.map Proven.value

/-- Modelled from the spec: `sorted_by_distance_to(target)` — all known
sections sorted by the section-distance metric (a stable sort). -/
def SectionMap.sorted_by_distance_to (sm : SectionMap) (target : XorName) :
    List EldersInfo :=
  sm.all.insertionSort (fun a b => (cmpPfxDistance target a.pfx b.pfx).isLE = true)

/-- Modelled from the spec: `closest(target)` — the known section closest to
the target under the same metric (the map always knows our own section). -/
def SectionMap.closest (sm : SectionMap) (target : XorName) : EldersInfo :=
  (sm.sorted_by_distance_to target).headD sm.our.value

/-- Modelled from the spec: `is_elder(name)` — membership in the current own
elder set. -/
def SectionMap.is_elder (sm : SectionMap) (name : XorName) : Bool :=
  sm.our.value.elders.any (fun kv => kv.1 == name)

/-- The peers of our own elder set, in key order. -/
def SectionMap.our_elders (sm : SectionMap) : List Peer :=
  sm.our.value.elders.map Prod.snd

/-- Lookup of a name in one elder set. -/
def findElder (info : EldersInfo) (name : XorName) : Option Peer :=
  (info.elders.find? (fun kv => kv.1 == name)).map Prod.snd

/-- Modelled from the spec: `get_elder(name)` — scans own and neighbour elder
sets. -/
def SectionMap.get_elder (sm : SectionMap) (name : XorName) : Option Peer :=
  (sm.all.filterMap (fun info => findElder info name)).head?

/-- Member lifecycle state (`MemberState` of the source's member table). -/
inductive MemberState where
  | Joined
  | Relocating (target_dst : XorName)
  | Left
deriving DecidableEq, Repr

/-- Per-member record: peer, age and lifecycle state. -/
structure MemberInfo where
  peer : Peer
  age : Nat
  state : MemberState
deriving DecidableEq, Repr

/-- Age at which a member starts (`MIN_AGE` of the source). -/
def MIN_AGE : Nat := 4

/-- A member that has just joined (`MemberInfo::joined`). -/
def MemberInfo.joined (peer : Peer) (age : Nat) : MemberInfo :=
  { peer := peer, age := age, state := .Joined }

/-- The member table of our own section, keyed by name. -/
structure SectionMembers where
  members : List (XorName × MemberInfo)
deriving DecidableEq, Repr

/-- Lookup in the member table (`SectionMembers::get`). -/
def SectionMembers.get (sm : SectionMembers) (name : XorName) : Option MemberInfo :=
  (sm.members.find? (fun kv => kv.1 == name)).map Prod.snd

/-- Message destination (`DstLocation` of the source). -/
inductive DstLocation where
  | Node (name : XorName)
  | Section (name : XorName)
  | Direct
deriving DecidableEq, Repr

/-- The error kinds reached by the code translated here. -/
inductive Error where
  | CannotRoute
  | UntrustedMessage
  | InvalidSignatureShare
  | FailedSignature
deriving DecidableEq, Repr

/-- Rust `delivery_group_size(n) = (n + 2) / 3` (src/delivery_group.rs, lines
21-25): an integer that is at least `n / 3`. -/
def delivery_group_size (n : Nat) : Nat :=
  (n + 2) / 3

/-- Rust `get_peer` (src/delivery_group.rs, lines 131-140): a known node, from the
member table or from any known elder set. -/
def get_peer (name : XorName) (our_members : SectionMembers) (sections : SectionMap) :
    Option Peer :=
  ((our_members.get name).map (fun info => info.peer)).orElse
    (fun _ => sections.get_elder name)

/-- The loop of `candidates` (src/delivery_group.rs, lines 106-120): walk the
sections in order of increasing distance to the target, accumulating elders,
with the delivery-group size of the section last visited; stop early at our
own section (dropping ourself and taking the accumulated count) or when the
closest section already supplies enough candidates. -/
def candidatesLoop (target_name our_id : XorName) (our_pfx : Pfx) :
    List EldersInfo → Nat → List Peer → Nat → List Peer × Nat
  | [], _, nodes_to_send, dg_size => (nodes_to_send, dg_size)
  | info :: rest, idx, nodes_to_send, _ =>
    let nodes_to_send := nodes_to_send ++ info.elders.map Prod.snd
    let dg_size := delivery_group_size info.elders.length
    if info.pfx = our_pfx then
      let nodes_to_send := nodes_to_send.filter (fun node => node.name ≠ our_id)
      (nodes_to_send, nodes_to_send.length)
    else if idx = 0 ∧ dg_size ≤ nodes_to_send.length then
      (nodes_to_send, dg_size)
    else
      candidatesLoop target_name our_id our_pfx rest (idx + 1) nodes_to_send dg_size

/-- The accumulation performed by `candidates` before the final sort. -/
def candidatesAcc (target_name our_id : XorName) (sections : SectionMap) :
    List Peer × Nat :=
  candidatesLoop target_name our_id sections.our.value.pfx
    (sections.sorted_by_distance_to target_name) 0 [] 0

/-- The accumulated candidates sorted by XOR distance to the target
(src/delivery_group.rs, line 121). -/
def candidatesSorted (target_name our_id : XorName) (sections : SectionMap) :
    List Peer :=
  (candidatesAcc target_name our_id sections).1.insertionSort
    (fun lhs rhs => (cmp_distance target_name lhs.name rhs.name).isLE = true)

/-- Rust `candidates` (src/delivery_group.rs, lines 94-128): the delivery-group
candidates for a target, or `CannotRoute` when the quorum is zero or not
enough candidates are known. -/
def candidates (target_name our_id : XorName) (sections : SectionMap) :
    Except Error (List Peer × Nat) :=
  if 0 < (candidatesAcc target_name our_id sections).2 ∧
      (candidatesAcc target_name our_id sections).2 ≤
        (candidatesSorted target_name our_id sections).length then
    .ok (candidatesSorted target_name our_id sections,
         (candidatesAcc target_name our_id sections).2)
  else
    .error .CannotRoute

/-- Rust `delivery_targets` (src/delivery_group.rs, lines 41-91): the nodes a
message for the given destination is sent onwards to, with the number of
targets it should reach. -/
def delivery_targets (dst : DstLocation) (our_id : XorName)
    (our_members : SectionMembers) (sections : SectionMap) :
    Except Error (List Peer × Nat) :=
  if ¬ sections.is_elder our_id then
    -- We are not Elder - return all the elders of our section, so the message
    -- can be properly relayed through them.
    let targets := sections.our_elders
    .ok (targets, targets.length)
  else
    match dst with
    | .Node target_name =>
      if target_name = our_id then
        .ok ([], 0)
      else
        match get_peer target_name our_members sections with
        | some node => .ok ([node], 1)
        | none => candidates target_name our_id sections
    | .Section target_name =>
      let info := sections.closest target_name
      if info.pfx = sections.our.value.pfx ∨
          is_neighbour info.pfx sections.our.value.pfx = true then
        -- Exclude our name since we don't need to send to ourself
        let section_ := (info.elders.map Prod.snd).filter
          (fun node => node.name ≠ our_id)
        .ok (section_, section_.length)
      else
        candidates target_name our_id sections
    | .Direct => .error .CannotRoute

/-- Rust `signature_targets` (src/delivery_group.rs, lines 144-163): the peers
responsible for collecting signatures over a message — the
`delivery_group_size` elders of ours closest to the destination name. -/
def signature_targets (dst : DstLocation) (our_elders : List Peer) : List Peer :=
  match (match dst with
         | .Node name => some name
         | .Section name => some name
         | .Direct => none) with
  | none => []
  | some dst_name =>
    let list := our_elders.insertionSort
      (fun lhs rhs => (cmp_distance dst_name lhs.name rhs.name).isLE = true)
    list.take (delivery_group_size list.length)

/- ----------------------------------------------------------------------
Legacy group-key merge (src/messages/get_group_key_response.rs).
---------------------------------------------------------------------- -/

/-- The legacy `GetGroupKeyResponse`: a target group address and a list of
`(DhtId, PublicSignKey)` pairs (both identifiers opaque here). -/
structure GetGroupKeyResponse where
  target_id : Nat
  public_sign_keys : List (Nat × Nat)
deriving DecidableEq, Repr

/-- Outcome of a Rust computation that may `panic!` via a failed assertion. -/
inductive PanicOr (α : Type) where
  | panic
  | value (a : α)
deriving DecidableEq, Repr

/-- Modelled from the spec: the histogram of keys of the legacy merge (the
`histogram` module is not among the sources) — occurrence counts per key, in
first-seen order. -/
abbrev Hist := List ((Nat × Nat) × Nat)

/-- Modelled from the spec: `Histogram::update` — counts one more occurrence
of a key. -/
def histUpdate (h : Hist) (k : Nat × Nat) : Hist :=
  if h.any (fun e => e.1 == k) then
    h.map (fun e => if e.1 == k then (e.1, e.2 + 1) else e)
  else
    h ++ [(k, 1)]

/-- Modelled from the spec: `Histogram::sort_by_highest` — entries ordered by
descending count (a stable sort). -/
def sort_by_highest (h : Hist) : List ((Nat × Nat) × Nat) :=
  h.insertionSort (fun a b => b.2 ≤ a.2)

/-- The loop over the other responses in `merge` (lines 55-60): bail out with
`None` at the first response whose `target_id` differs from ours, otherwise
feed every key into the histogram. -/
def absorbOthers (self_tid : Nat) (h : Hist) :
    List GetGroupKeyResponse → Option Hist
  | [] => some h
  | other :: rest =>
    if other.target_id ≠ self_tid then
      none
    else
      absorbOthers self_tid (other.public_sign_keys.foldl histUpdate h) rest

/-- The loop over `sort_by_highest` in `merge` (lines 64-76): collect keys
while fewer than `GROUP_SIZE`, asserting each count is at most `GROUP_SIZE`
(a failed assertion panics). -/
def mergeLoop (group_size : Nat) (merged_group : List (Nat × Nat)) :
    List ((Nat × Nat) × Nat) → PanicOr (List (Nat × Nat))
  | [] => .value merged_group
  | e :: rest =>
    if merged_group.length < group_size then
      if e.2 ≤ group_size then
        mergeLoop group_size (merged_group ++ [e.1]) rest
      else
        .panic
    else
      .value merged_group

/-- Rust `GetGroupKeyResponse::merge` (lines 46-83), parametrised by
`types::GROUP_SIZE` (the `types` module is not among the sources): histogram
all keys, return `None` on any mismatching `target_id`, take the
`GROUP_SIZE` most frequent keys, and assert that exactly `GROUP_SIZE` were
collected (`assert_eq!` panics otherwise). -/
def GetGroupKeyResponse.merge (group_size : Nat) (self : GetGroupKeyResponse)
    (get_group_key_responses : List GetGroupKeyResponse) :
    PanicOr (Option GetGroupKeyResponse) :=
  match absorbOthers self.target_id (self.public_sign_keys.foldl histUpdate [])
      get_group_key_responses with
  | none => .value none
  | some histogram =>
    match mergeLoop group_size [] (sort_by_highest histogram) with
    | .panic => .panic
    | .value merged_group =>
      if merged_group.length = group_size then
        .value (some { target_id := self.target_id, public_sign_keys := merged_group })
      else
        .panic

/- ----------------------------------------------------------------------
Adult state handlers (src/states/adult/mod.rs).
---------------------------------------------------------------------- -/

/-- The part of `GenesisPfxInfo` the handlers inspect: its parsec version
(the rest is opaque). -/
structure GenesisPfxInfo where
  parsec_version : Nat
  payload : Nat
deriving DecidableEq, Repr

/-- The part of `Chain` the adult handlers read: its network parameters and
our elders' connection identities (the rest is opaque). -/
structure Chain where
  network_cfg : Nat
  our_elders : List Nat
  data : Nat
deriving DecidableEq, Repr

/-- Message content as the adult distinguishes it: a `GenesisUpdate` or
anything else. -/
inductive MessageContent where
  | GenesisUpdate (info : GenesisPfxInfo)
  | Other (payload : Nat)
deriving DecidableEq, Repr

/-- A signed routing message as filtered and relayed by the adult: its
incoming-filter key `(source, seq, digest)` is collapsed into one opaque
value, with its destination and content. -/
structure Msg where
  key : Nat
  dst : Nat
  content : MessageContent
deriving DecidableEq, Repr

/-- Modelled from the spec: a bounded LRU insertion — the key moves to the
front and the store is truncated to its capacity (the message filters are not
among the sources; the spec calls both "bounded LRU"). -/
def lruInsert {α : Type} [DecidableEq α] (cap : Nat) (k : α) (l : List α) : List α :=
  (k :: l.erase k).take cap

/-- Modelled from the spec: the routing-message filter — an incoming store
keyed by `(source, seq, digest)` and an outgoing store keyed by
`(recipient, digest)`, both bounded LRU. -/
structure RoutingMessageFilter where
  incoming : List Nat
  outgoing : List (Nat × Nat)
deriving DecidableEq, Repr

/-- Modelled from the spec: `filter_incoming` — records the message and
reports whether it was new. -/
def filter_incoming (cap : Nat) (f : RoutingMessageFilter) (msg : Msg) :
    Bool × RoutingMessageFilter :=
  (decide (msg.key ∉ f.incoming),
   { f with incoming := lruInsert cap msg.key f.incoming })

/-- Modelled from the spec: `filter_outgoing` — records the pair of recipient
and message and reports whether it was new. -/
def filter_outgoing (cap : Nat) (f : RoutingMessageFilter) (msg : Msg)
    (recipient : Nat) : Bool × RoutingMessageFilter :=
  (decide ((recipient, msg.key) ∉ f.outgoing),
   { f with outgoing := lruInsert cap (recipient, msg.key) f.outgoing })

/-- The state transitions an adult handler can request. -/
inductive Transition where
  | Stay
  | IntoElder
  | Rebootstrap
deriving DecidableEq, Repr

/-- The fields of the `Adult` state (src/states/adult/mod.rs, lines 71-86);
externally owned values (network service, timer, accumulator, parsec, rng)
are opaque. -/
structure Adult where
  chain : Chain
  network_service : Nat
  event_backlog : List Nat
  full_id : Nat
  gen_pfx_info : GenesisPfxInfo
  routing_msg_backlog : List Msg
  direct_msg_backlog : List (Nat × Nat)
  sig_accumulator : Nat
  parsec_map : Nat
  knowledge_timer_token : Nat
  routing_msg_filter : RoutingMessageFilter
  timer : Nat
  rng : Nat
deriving DecidableEq, Repr

/-- The external collaborators the adult handlers call into: filter
capacities, the chain's location test, message verification (`None` denotes
`VerifyStatus::Full`), `ParsecMap::init` (consuming the rng) and
`Chain::new`. -/
structure AdultCtx where
  in_cap : Nat
  out_cap : Nat
  in_location : Chain → Nat → Bool
  verify : Chain → Msg → Option Error
  parsec_init : Nat → Nat → Nat → GenesisPfxInfo → Nat × Nat
  chain_new : Nat → Nat → GenesisPfxInfo → Chain

/-- Rust `Adult::handle_genesis_update` (lines 299-326): ignore stale versions;
otherwise install the new genesis info, re-init parsec (consuming the rng)
and the chain, and clear both message backlogs. -/
def handle_genesis_update (ctx : AdultCtx) (st : Adult) (gen_pfx_info : GenesisPfxInfo) :
    Adult × Transition :=
  if gen_pfx_info.parsec_version ≤ st.gen_pfx_info.parsec_version then
    (st, .Stay)
  else
    let st := { st with gen_pfx_info := gen_pfx_info }
    let pr := ctx.parsec_init st.parsec_map st.rng st.full_id gen_pfx_info
    let st := { st with parsec_map := pr.1, rng := pr.2 }
    let st := { st with chain := ctx.chain_new st.chain.network_cfg st.full_id gen_pfx_info }
    ({ st with routing_msg_backlog := [], direct_msg_backlog := [] }, .Stay)

/-- Rust `Adult::send_signed_message_to_elders` (lines 329-359): forward to the
elders whose outgoing-filter entry is new, then record the message in the
incoming filter; the returned list is the recipients actually sent to. -/
def send_signed_message_to_elders (ctx : AdultCtx) (st : Adult) (msg : Msg) :
    Adult × List Nat :=
  let step := fun (acc : RoutingMessageFilter × List Nat) (p2p_node : Nat) =>
    let fr := filter_outgoing ctx.out_cap acc.1 msg p2p_node
    (fr.2, if fr.1 then acc.2 ++ [p2p_node] else acc.2)
  let ft := st.chain.our_elders.foldl step (st.routing_msg_filter, [])
  let fr := filter_incoming ctx.in_cap ft.1 msg
  ({ st with routing_msg_filter := fr.2 }, ft.2)

/-- Rust `Adult::handle_filtered_signed_message` (lines 401-426): if the message is
for us, handle a verified `GenesisUpdate` directly or push anything else onto
the routing backlog; except for the genesis case, forward to our elders. -/
def handle_filtered_signed_message (ctx : AdultCtx) (st : Adult) (msg : Msg) :
    Adult × Except Error Transition × List Nat :=
  if ctx.in_location st.chain msg.dst then
    match msg.content with
    | .GenesisUpdate info =>
      match ctx.verify st.chain msg with
      | some e => (st, .error e, [])
      | none =>
        ((handle_genesis_update ctx st info).1,
         .ok (handle_genesis_update ctx st info).2, [])
    | .Other _ =>
      ((send_signed_message_to_elders ctx
          { st with routing_msg_backlog := st.routing_msg_backlog ++ [msg] } msg).1,
       .ok .Stay,
       (send_signed_message_to_elders ctx
          { st with routing_msg_backlog := st.routing_msg_backlog ++ [msg] } msg).2)
  else
    ((send_signed_message_to_elders ctx st msg).1, .ok .Stay,
     (send_signed_message_to_elders ctx st msg).2)

/-- Rust `Adult::handle_signed_message` (lines 385-399): drop the message if the
incoming filter already knows it, otherwise handle it. -/
def handle_signed_message (ctx : AdultCtx) (st : Adult) (msg : Msg) :
    Adult × Except Error Transition × List Nat :=
  if (filter_incoming ctx.in_cap st.routing_msg_filter msg).1 then
    handle_filtered_signed_message ctx
      { st with routing_msg_filter := (filter_incoming ctx.in_cap st.routing_msg_filter msg).2 }
      msg
  else
    ({ st with routing_msg_filter := (filter_incoming ctx.in_cap st.routing_msg_filter msg).2 },
     .ok .Stay, [])

/- ----------------------------------------------------------------------
First-node genesis (src/node/stage/mod.rs).
---------------------------------------------------------------------- -/

/-- The BLS primitives and encodings `first_node` calls into, all external
collaborators (keys, shares and byte strings are opaque): naming of a public
key, `generate_secret_key_set`, its derived public-key set and shares, share
signing and `combine_signatures` (which can fail), and the canonical
encodings of the two signed payloads. -/
structure BlsCtx where
  name_of : Nat → Nat
  generate_secret_key_set : Nat → Nat → Nat
  public_keys : Nat → Nat
  secret_key_share : Nat → Nat → Nat
  public_key : Nat → Nat
  sign_share : Nat → Nat → Nat
  combine_signatures : Nat → Nat → Option Nat
  serialize_elders : EldersInfo → Nat
  serialize_member : MemberInfo → Nat

/-- A section-key share as held by an elder (`SectionKeyShare`). -/
structure SectionKeyShare where
  public_key_set : Nat
  index : Nat
  secret_key_share : Nat
deriving DecidableEq, Repr

/-- The shared section state built at genesis: the proof chain (its keys),
the section map and our member table. -/
structure SharedState where
  our_history : List Nat
  sections : SectionMap
  our_members : List (XorName × MemberInfo)
deriving DecidableEq, Repr

/-- Modelled from the spec: `SharedState::new(chain, our)` (the `section`
module is not among the sources) — a fresh state holding the given proof
chain and our own proven committee, with no neighbours and no members yet. -/
def SharedState.new (chain : List Nat) (our : Proven EldersInfo) : SharedState :=
  { our_history := chain, sections := { our := our, neighbors := [] }, our_members := [] }

/-- Modelled from the spec: `our_members.update(member_info, ..)` — inserts a
member record keyed by its peer's name when none is present. -/
def membersUpdate (ms : List (XorName × MemberInfo)) (mi : MemberInfo) :
    List (XorName × MemberInfo) :=
  if ms.any (fun kv => kv.1 == mi.peer.name) then ms else ms ++ [(mi.peer.name, mi)]

/-- Rust `create_first_proof` (src/node/stage/mod.rs, lines 398-413): sign the
serialized payload with the single key share and combine; failure of
`combine_signatures` becomes `InvalidSignatureShare` (rendered `none`). -/
def create_first_proof (bls : BlsCtx) (pk_set sk_share bytes : Nat) : Option Proof :=
  (bls.combine_signatures pk_set (bls.sign_share sk_share bytes)).map
    (fun signature => { public_key := bls.public_key pk_set, signature := signature })

/-- Rust `create_first_elders_info` (src/node/stage/mod.rs, lines 364-375): a
single-elder committee under the default (empty) prefix, proven by a
first-node proof. -/
def create_first_elders_info (bls : BlsCtx) (pk_set sk_share : Nat) (peer : Peer) :
    Option (Proven EldersInfo) :=
  (create_first_proof bls pk_set sk_share
      (bls.serialize_elders { pfx := [], elders := [(peer.name, peer)] })).map
    (fun proof => { value := { pfx := [], elders := [(peer.name, peer)] }, proof := proof })

/-- Rust `create_first_shared_state` (src/node/stage/mod.rs, lines 377-396): the
genesis shared state — a proof chain rooted at the committee's key, and every
elder recorded as a joined member of age `MIN_AGE`, each under a first-node
proof. -/
def create_first_shared_state (bls : BlsCtx) (pk_set sk_share : Nat)
    (elders_info : Proven EldersInfo) : Option SharedState :=
  ((SharedState.new [elders_info.proof.public_key] elders_info).sections.our.value.elders.map
      Prod.snd).foldlM
    (fun st peer =>
      (create_first_proof bls pk_set sk_share
          (bls.serialize_member (MemberInfo.joined peer MIN_AGE))).map
        (fun _proof =>
          { st with
            our_members := membersUpdate st.our_members (MemberInfo.joined peer MIN_AGE) }))
    (SharedState.new [elders_info.proof.public_key] elders_info)

/-- The stage state the node lives in (`State` of src/node/stage/mod.rs);
bootstrapping and joining stages are opaque here. -/
inductive NodeState where
  | Bootstrapping (data : Nat)
  | Joining (data : Nat)
  | Approved (shared_state : SharedState) (section_key_share : Option SectionKeyShare)
      (node_name : XorName)
deriving DecidableEq, Repr

/-- The events `first_node` pushes to the embedder. -/
inductive NodeEvent where
  | ConnectedFirst
  | PromotedToElder
deriving DecidableEq, Repr

/-- Rust `Stage::first_node` (src/node/stage/mod.rs, lines 89-144), its pure core:
build our own peer, generate a fresh secret key set (threshold 1), synthesize
and sign the single-elder committee, build the genesis shared state, and
enter the `Approved` state directly, holding the section key share at index
0; the `Connected(First)` and `PromotedToElder` events are emitted. -/
def first_node (bls : BlsCtx) (keypair connection_info rng : Nat) :
    Option (NodeState × List NodeEvent) := do
  let peer : Peer := { name := bls.name_of keypair, addr := connection_info }
  let secret_key_set := bls.generate_secret_key_set rng 1
  let public_key_set := bls.public_keys secret_key_set
  let secret_key_share := bls.secret_key_share secret_key_set 0
  let elders_info ← create_first_elders_info bls public_key_set secret_key_share peer
  let shared_state ← create_first_shared_state bls public_key_set secret_key_share elders_info
  let section_key_share : SectionKeyShare :=
    { public_key_set := public_key_set, index := 0, secret_key_share := secret_key_share }
  some (NodeState.Approved shared_state (some section_key_share) peer.name,
        [NodeEvent.ConnectedFirst, NodeEvent.PromotedToElder])

/- ----------------------------------------------------------------------
Concrete scenarios used by witnesses and counterexamples.
---------------------------------------------------------------------- -/

/-- Whether `delivery_group_size n = ⌈n / 3⌉` holds is the content of claim C1;
this is the ceiling stated over the rationals. -/
def ceilThird (n : Nat) : Nat := ⌈(n : ℚ) / 3⌉₊

/-- Scenario "relay to neighbour": the target name, with leading bits `11`. -/
def c2t : XorName := 3 * 2 ^ 254

/-- Scenario "relay to neighbour": our own name (leading bits `00`). -/
def c2our_id : XorName := 1

/-- Scenario "relay to neighbour": our section's elders (prefix `00`). -/
def c2ourElders : List (XorName × Peer) :=
  [(1, ⟨1, 101⟩), (2, ⟨2, 102⟩), (3, ⟨3, 103⟩)]

/-- Scenario "relay to neighbour": the seven elders of the neighbour section
with prefix `1`, in key order. -/
def c2neighborElders : List (XorName × Peer) :=
  (List.range 7).map (fun i => (2 ^ 255 + i, ⟨2 ^ 255 + i, 200 + i⟩))

/-- Scenario "relay to neighbour": the known sections — ours (`00`) and the
neighbour (`1`). -/
def c2sections : SectionMap :=
  { our := { value := { pfx := [false, false], elders := c2ourElders },
             proof := ⟨0, 0⟩ },
    neighbors := [{ value := { pfx := [true], elders := c2neighborElders },
                    proof := ⟨0, 0⟩ }] }

/-- Scenario "relay to neighbour": no adults in the member table. -/
def c2members : SectionMembers := ⟨[]⟩

/-- Closest-section scenario: our section is the only one known. -/
def c3sections : SectionMap :=
  { our := { value := { pfx := [], elders := [(1, ⟨1, 11⟩), (2, ⟨2, 12⟩)] },
             proof := ⟨0, 0⟩ },
    neighbors := [] }

/-- Non-elder scenario: a single-elder section not containing name 9. -/
def c5sections : SectionMap :=
  { our := { value := { pfx := [], elders := [(5, ⟨5, 55⟩)] }, proof := ⟨0, 0⟩ },
    neighbors := [] }

/-- Candidates-path scenario: our single-elder section `00` plus a known
non-neighbour section `11` holding two elders. -/
def c6sections : SectionMap :=
  { our := { value := { pfx := [false, false], elders := [(1, ⟨1, 21⟩)] },
             proof := ⟨0, 0⟩ },
    neighbors := [{ value := { pfx := [true, true],
                               elders := [(3 * 2 ^ 254, ⟨3 * 2 ^ 254, 31⟩),
                                          (3 * 2 ^ 254 + 1, ⟨3 * 2 ^ 254 + 1, 32⟩)] },
                    proof := ⟨0, 0⟩ }] }

/-- Signature-targets scenario: two elders. -/
def c4E : List Peer := [⟨1, 5⟩, ⟨2, 6⟩]

/-- Adult-handler scenario: the external collaborators, with filter
capacities 4. -/
def c8ctx : AdultCtx :=
  { in_cap := 4, out_cap := 4,
    in_location := fun _ _ => true,
    verify := fun _ _ => none,
    parsec_init := fun p r _ _ => (p + 1, r + 1),
    chain_new := fun cfg _ _ => ⟨cfg, [7], 0⟩ }

/-- Adult-handler scenario: the node's state. -/
def c8st : Adult :=
  { chain := ⟨0, [7, 8], 0⟩, network_service := 0, event_backlog := [],
    full_id := 42, gen_pfx_info := ⟨1, 0⟩, routing_msg_backlog := [],
    direct_msg_backlog := [], sig_accumulator := 0, parsec_map := 0,
    knowledge_timer_token := 0, routing_msg_filter := ⟨[], []⟩, timer := 0,
    rng := 0 }

/-- Adult-handler scenario: an ordinary (non-genesis) signed message. -/
def c8msg : Msg := { key := 5, dst := 0, content := .Other 9 }

/-- First-node scenario: a concrete instantiation of the BLS collaborators. -/
def c7bls : BlsCtx :=
  { name_of := fun k => k + 1,
    generate_secret_key_set := fun r t => r + 10 * t,
    public_keys := fun s => s + 1,
    secret_key_share := fun s i => s + i + 2,
    public_key := fun ps => ps + 3,
    sign_share := fun sh b => sh + b,
    combine_signatures := fun _ s => some (s + 1),
    serialize_elders := fun _ => 0,
    serialize_member := fun _ => 0 }

/-- C1: for every section size `n`, `delivery_group_size n` computes
`(n + 2) / 3` with integer division, and this value equals `⌈n / 3⌉`. -/
theorem delivery_group_size_eq_ceil (n : Nat) :
    delivery_group_size n = (n + 2) / 3 ∧ delivery_group_size n = ceilThird n := by
  refine ⟨rfl, ?_⟩
  show (n + 2) / 3 = ⌈(n : ℚ) / 3⌉₊
  rcases Nat.lt_or_ge n 1 with h | h
  · interval_cases n
    simp
  · have h3 : (0:ℚ) < 3 := by norm_num
    have hk1 : 3 * ((n + 2) / 3) ≤ n + 2 := Nat.mul_div_le _ _
    have hk2 : n + 2 < 3 * ((n + 2) / 3 + 1) := Nat.lt_mul_div_succ _ (by norm_num)
    refine (Nat.ceil_eq_iff (by omega)).mpr ⟨?_, ?_⟩ |>.symm
    · rw [lt_div_iff₀ h3]
      have hcast : (3 : ℚ) * ((n + 2) / 3 - 1 : ℕ) < n :=
        mod_cast (by omega : 3 * ((n + 2) / 3 - 1) < n)
      calc ((((n:ℕ) + 2) / 3 - 1 : ℕ) : ℚ) * 3
          = 3 * (((n + 2) / 3 - 1 : ℕ) : ℚ) := by ring
        _ < n := hcast
    · rw [div_le_iff₀ h3]
      have hcast : ((n:ℕ) : ℚ) ≤ 3 * (((n + 2) / 3 : ℕ) : ℚ) :=
        mod_cast (by omega : n ≤ 3 * ((n + 2) / 3))
      calc ((n:ℕ):ℚ) ≤ 3 * (((n + 2) / 3 : ℕ) : ℚ) := hcast
        _ = (((n + 2) / 3 : ℕ) : ℚ) * 3 := by ring

/- ----------------------------------------------------------------------
Helper lemmas.
---------------------------------------------------------------------- -/

/-- Comparison of naturals is `lt` or `eq` exactly when `≤` holds. -/
theorem compare_isLE_iff (a b : Nat) : (compare a b).isLE = true ↔ a ≤ b := by
  cases hc : compare a b with
  | lt => simpa [Ordering.isLE] using Nat.le_of_lt (Nat.compare_eq_lt.mp hc)
  | eq => simpa [Ordering.isLE] using Nat.le_of_eq (Nat.compare_eq_eq.mp hc)
  | gt => simpa [Ordering.isLE] using Nat.not_le.mpr (Nat.compare_eq_gt.mp hc)

/-- In a list sorted for `R`, every kept element relates to every dropped one. -/
theorem pairwise_take_drop {α : Type} {R : α → α → Prop} {l : List α}
    (h : l.Pairwise R) (k : Nat) : ∀ p ∈ l.take k, ∀ q ∈ l.drop k, R p q := by
  have h2 : (l.take k ++ l.drop k).Pairwise R := by
    rw [List.take_append_drop]
    exact h
  exact (List.pairwise_append.mp h2).2.2

/-- The delivery-group size never exceeds the section size. -/
theorem delivery_group_size_le (n : Nat) (h : 1 ≤ n) : delivery_group_size n ≤ n := by
  unfold delivery_group_size
  omega

/- ----------------------------------------------------------------------
Claim theorems: delivery-group selector.
---------------------------------------------------------------------- -/

/-- C4: for a `Node` or `Section` destination named `d` and a non-empty elder
list `E`, `signature_targets` returns exactly `delivery_group_size |E|`
peers, and they are elements of `E` closest to `d` under XOR: together with
the rest they permute `E`, and each returned peer is at least as close to `d`
as each omitted one. -/
theorem signature_targets_closest (d : XorName) (dst : DstLocation) (E : List Peer)
    (hdst : dst = DstLocation.Node d ∨ dst = DstLocation.Section d)
    (hE : 1 ≤ E.length) :
    (signature_targets dst E).length = delivery_group_size E.length ∧
    ∃ rest, (signature_targets dst E ++ rest).Perm E ∧
      ∀ p ∈ signature_targets dst E, ∀ q ∈ rest, d ^^^ p.name ≤ d ^^^ q.name := by
  have hperm := List.perm_insertionSort
    (fun lhs rhs => (cmp_distance d lhs.name rhs.name).isLE = true) E
  have hlen : (E.insertionSort
      (fun lhs rhs => (cmp_distance d lhs.name rhs.name).isLE = true)).length = E.length :=
    hperm.length_eq
  have hst : signature_targets dst E =
      (E.insertionSort (fun lhs rhs => (cmp_distance d lhs.name rhs.name).isLE = true)).take
        (delivery_group_size E.length) := by
    rcases hdst with h | h <;> subst h <;> simp [signature_targets, hlen]
  have hk : delivery_group_size E.length ≤ E.length := delivery_group_size_le E.length hE
  constructor
  · rw [hst, List.length_take, hlen]
    omega
  · refine ⟨(E.insertionSort
        (fun lhs rhs => (cmp_distance d lhs.name rhs.name).isLE = true)).drop
          (delivery_group_size E.length), ?_, ?_⟩
    · rw [hst, List.take_append_drop]
      exact hperm
    · have hsorted : (E.insertionSort
          (fun lhs rhs => (cmp_distance d lhs.name rhs.name).isLE = true)).Pairwise
            (fun a b => (cmp_distance d a.name b.name).isLE = true) := by
        haveI htot : IsTotal Peer (fun a b => (cmp_distance d a.name b.name).isLE = true) := by
          constructor
          intro x y
          rcases Nat.le_total (d ^^^ x.name) (d ^^^ y.name) with h | h
          · exact Or.inl ((compare_isLE_iff _ _).mpr h)
          · exact Or.inr ((compare_isLE_iff _ _).mpr h)
        haveI htr : IsTrans Peer (fun a b => (cmp_distance d a.name b.name).isLE = true) := by
          constructor
          intro x y z hxy hyz
          exact (compare_isLE_iff _ _).mpr
            (Nat.le_trans ((compare_isLE_iff _ _).mp hxy) ((compare_isLE_iff _ _).mp hyz))
        exact List.sorted_insertionSort _ E
      intro p hp q hq
      rw [hst] at hp
      exact (compare_isLE_iff _ _).mp
        (pairwise_take_drop hsorted (delivery_group_size E.length) p hp q hq)

/-- C4 witness: two elders, destination `Node 0` — one target, closest to 0. -/
theorem signature_targets_closest_witness :
    (signature_targets (DstLocation.Node 0) c4E).length = delivery_group_size c4E.length ∧
    ∃ rest, (signature_targets (DstLocation.Node 0) c4E ++ rest).Perm c4E ∧
      ∀ p ∈ signature_targets (DstLocation.Node 0) c4E, ∀ q ∈ rest,
        0 ^^^ p.name ≤ 0 ^^^ q.name :=
  signature_targets_closest 0 (DstLocation.Node 0) c4E (Or.inl rfl) (by decide)

/-- C5: a node that is not an elder of its own section returns all own
elders as targets, with the full count as delivery-group size, for every
destination. -/
theorem delivery_targets_non_elder (dst : DstLocation) (our_id : XorName)
    (our_members : SectionMembers) (sections : SectionMap)
    (h : sections.is_elder our_id = false) :
    delivery_targets dst our_id our_members sections =
      .ok (sections.our_elders, sections.our_elders.length) := by
  simp [delivery_targets, h]

/-- C5 witness: name 9 is no elder of the single-elder section. -/
theorem delivery_targets_non_elder_witness :
    delivery_targets DstLocation.Direct 9 ⟨[]⟩ c5sections =
      .ok (c5sections.our_elders, c5sections.our_elders.length) :=
  delivery_targets_non_elder DstLocation.Direct 9 ⟨[]⟩ c5sections (by decide)

/-- C3: for an elder and destination `Section t`, when the known section
closest to `t` has our own prefix or one neighbouring it, `delivery_targets`
returns all its elders except ourself, with the delivery-group size equal to
the number of returned targets. -/
theorem delivery_targets_section_all_elders (t our_id : XorName)
    (our_members : SectionMembers) (sections : SectionMap)
    (helder : sections.is_elder our_id = true)
    (hclose : (sections.closest t).pfx = sections.our.value.pfx ∨
        is_neighbour (sections.closest t).pfx sections.our.value.pfx = true) :
    delivery_targets (.Section t) our_id our_members sections =
      .ok (((sections.closest t).elders.map Prod.snd).filter (fun node => node.name ≠ our_id),
           (((sections.closest t).elders.map Prod.snd).filter
             (fun node => node.name ≠ our_id)).length) := by
  have hne : ¬ ¬ sections.is_elder our_id = true := by simp [helder]
  unfold delivery_targets
  rw [if_neg hne]
  exact if_pos hclose

/-- C3 witness: the only known section is ours, so it is closest; the other
elder is the single target. -/
theorem delivery_targets_section_all_elders_witness :
    delivery_targets (.Section 0) 1 ⟨[]⟩ c3sections =
      .ok (((c3sections.closest 0).elders.map Prod.snd).filter (fun node => node.name ≠ 1),
           (((c3sections.closest 0).elders.map Prod.snd).filter
             (fun node => node.name ≠ 1)).length) :=
  delivery_targets_section_all_elders 0 1 ⟨[]⟩ c3sections (by decide) (Or.inl (by decide))

/-- C2 counterexample: in the relay-to-neighbour scenario (our prefix `00`,
target name with prefix `11`, the only other known section the neighbour `1`
with seven elders), `delivery_targets (Section t)` returns seven targets with
delivery-group size 7 — not the three closest elders with quorum 3 that the
claim states: the neighbour short-circuit fires because prefix `1` neighbours
prefix `00`. -/
theorem relay_to_neighbor_counterexample :
    Except.map (fun r => (r.1.length, r.2))
        (delivery_targets (.Section c2t) c2our_id c2members c2sections) =
      .ok (7, 7) ∧
    ((7, 7) : Nat × Nat) ≠ (3, 3) :=
  ⟨rfl, by decide⟩

/-- C2 amended: in the relay-to-neighbour scenario, `delivery_targets
(Section t)` takes the neighbour short-circuit and returns all seven elders
of section `1` (ourself is not among them), with delivery-group size 7. -/
theorem relay_to_neighbor_amended :
    delivery_targets (.Section c2t) c2our_id c2members c2sections =
      .ok (c2neighborElders.map Prod.snd, 7) := rfl

/-- A list stably sorted by XOR distance to `t` is pairwise ordered by that
distance. -/
theorem insertionSort_xor_sorted (t : XorName) (l : List Peer) :
    (l.insertionSort (fun lhs rhs => (cmp_distance t lhs.name rhs.name).isLE = true)).Pairwise
      (fun a b => t ^^^ a.name ≤ t ^^^ b.name) := by
  haveI htot : IsTotal Peer (fun a b => (cmp_distance t a.name b.name).isLE = true) := by
    constructor
    intro x y
    rcases Nat.le_total (t ^^^ x.name) (t ^^^ y.name) with h | h
    · exact Or.inl ((compare_isLE_iff _ _).mpr h)
    · exact Or.inr ((compare_isLE_iff _ _).mpr h)
  haveI htr : IsTrans Peer (fun a b => (cmp_distance t a.name b.name).isLE = true) := by
    constructor
    intro x y z hxy hyz
    exact (compare_isLE_iff _ _).mpr
      (Nat.le_trans ((compare_isLE_iff _ _).mp hxy) ((compare_isLE_iff _ _).mp hyz))
  have hs : (l.insertionSort
      (fun lhs rhs => (cmp_distance t lhs.name rhs.name).isLE = true)).Pairwise
        (fun a b => (cmp_distance t a.name b.name).isLE = true) :=
    List.sorted_insertionSort _ l
  exact hs.imp (fun hab => (compare_isLE_iff _ _).mp hab)

/-- C6: on the candidates-from-closest-sections path (an elder whose
destination is not resolved by the earlier short-circuit rules),
`delivery_targets` is the `candidates` computation; that computation fails
with `CannotRoute` exactly when the computed delivery-group size is zero or
fewer than that many candidate peers were accumulated, and otherwise
succeeds with the accumulated candidates sorted by XOR distance to the
target. -/
theorem candidates_path_cannot_route (t our_id : XorName)
    (our_members : SectionMembers) (sections : SectionMap) (dst : DstLocation)
    (helder : sections.is_elder our_id = true)
    (hpath : (dst = DstLocation.Node t ∧ t ≠ our_id ∧
                get_peer t our_members sections = none) ∨
             (dst = DstLocation.Section t ∧
                ¬ ((sections.closest t).pfx = sections.our.value.pfx ∨
                   is_neighbour (sections.closest t).pfx sections.our.value.pfx = true))) :
    delivery_targets dst our_id our_members sections = candidates t our_id sections ∧
    (candidates t our_id sections = .error .CannotRoute ↔
      (candidatesAcc t our_id sections).2 = 0 ∨
      (candidatesAcc t our_id sections).1.length < (candidatesAcc t our_id sections).2) ∧
    (candidates t our_id sections ≠ .error .CannotRoute →
      candidates t our_id sections =
        .ok (candidatesSorted t our_id sections, (candidatesAcc t our_id sections).2) ∧
      (candidatesSorted t our_id sections).Perm (candidatesAcc t our_id sections).1 ∧
      (candidatesSorted t our_id sections).Pairwise
        (fun a b => t ^^^ a.name ≤ t ^^^ b.name)) := by
  have hsl : (candidatesSorted t our_id sections).length =
      (candidatesAcc t our_id sections).1.length :=
    (List.perm_insertionSort _ _).length_eq
  refine ⟨?_, ?_, ?_⟩
  · rcases hpath with ⟨hdst, hnid, hgp⟩ | ⟨hdst, hnc⟩ <;> subst hdst
    · simp [delivery_targets, helder, hnid, hgp]
    · simp [delivery_targets, helder, hnc]
  · unfold candidates
    by_cases hc : 0 < (candidatesAcc t our_id sections).2 ∧
        (candidatesAcc t our_id sections).2 ≤ (candidatesSorted t our_id sections).length
    · rw [if_pos hc]
      constructor
      · intro h
        exact Except.noConfusion h
      · intro h
        exfalso
        rw [hsl] at hc
        omega
    · rw [if_neg hc]
      constructor
      · intro _
        rw [hsl] at hc
        omega
      · intro _
        rfl
  · intro hne
    unfold candidates at hne ⊢
    by_cases hc : 0 < (candidatesAcc t our_id sections).2 ∧
        (candidatesAcc t our_id sections).2 ≤ (candidatesSorted t our_id sections).length
    · rw [if_pos hc]
      exact ⟨rfl, List.perm_insertionSort _ _, insertionSort_xor_sorted t _⟩
    · rw [if_neg hc] at hne
      exact absurd rfl hne

/-- C6 witness: an elder of section `00` routing `Section t` for a `t` owned
by the known non-neighbour section `11`: the candidates path succeeds with
its two elders and delivery-group size 1. -/
theorem candidates_path_cannot_route_witness :
    delivery_targets (.Section c2t) 1 ⟨[]⟩ c6sections = candidates c2t 1 c6sections ∧
    candidates c2t 1 c6sections =
      .ok (candidatesSorted c2t 1 c6sections, (candidatesAcc c2t 1 c6sections).2) := by
  have h := candidates_path_cannot_route c2t 1 ⟨[]⟩ c6sections (.Section c2t) (by decide)
    (Or.inr ⟨rfl, by decide⟩)
  have hok : candidates c2t 1 c6sections =
      .ok ([⟨3 * 2 ^ 254, 31⟩, ⟨3 * 2 ^ 254 + 1, 32⟩], 1) := rfl
  have hne : candidates c2t 1 c6sections ≠ .error .CannotRoute := by
    rw [hok]
    intro hcontra
    exact Except.noConfusion hcontra
  exact ⟨h.1, (h.2.2 hne).1⟩

/- ----------------------------------------------------------------------
Claim theorems: adult handlers.
---------------------------------------------------------------------- -/

/-- An LRU insertion leaves the inserted key in front, within capacity. -/
theorem lruInsert_shape {α : Type} [DecidableEq α] (cap : Nat) (k : α) (l : List α)
    (hcap : 1 ≤ cap) :
    ∃ tl, lruInsert cap k l = k :: tl ∧ (k :: tl).length ≤ cap := by
  unfold lruInsert
  obtain ⟨c, rfl⟩ : ∃ c, cap = c + 1 := ⟨cap - 1, by omega⟩
  refine ⟨(l.erase k).take c, ?_, ?_⟩
  · rw [List.take_succ_cons]
  · simp [List.length_take]

/-- Re-inserting the front key of a store within capacity changes nothing. -/
theorem lruInsert_stable {α : Type} [DecidableEq α] (cap : Nat) (k : α) (tl : List α)
    (hlen : (k :: tl).length ≤ cap) :
    lruInsert cap k (k :: tl) = k :: tl := by
  unfold lruInsert
  rw [List.erase_cons_head]
  exact List.take_of_length_le hlen

/-- Forwarding to the elders ends by recording the message in the incoming
filter, so the message key is in front of that store, within capacity. -/
theorem send_to_elders_filter_shape (ctx : AdultCtx) (st : Adult) (msg : Msg)
    (hcap : 1 ≤ ctx.in_cap) :
    ∃ tl, (send_signed_message_to_elders ctx st msg).1.routing_msg_filter.incoming =
        msg.key :: tl ∧ (msg.key :: tl).length ≤ ctx.in_cap := by
  simp only [send_signed_message_to_elders, filter_incoming]
  exact lruInsert_shape ctx.in_cap msg.key _ hcap

/-- A genesis update never touches the routing-message filter. -/
theorem handle_genesis_update_filter (ctx : AdultCtx) (st : Adult) (g : GenesisPfxInfo) :
    (handle_genesis_update ctx st g).1.routing_msg_filter = st.routing_msg_filter := by
  unfold handle_genesis_update
  split
  · rfl
  · rfl

/-- After `handle_filtered_signed_message` on a state whose incoming filter
already holds the message key in front, the key is still in front, within
capacity. -/
theorem handle_filtered_filter_shape (ctx : AdultCtx) (st : Adult) (msg : Msg)
    (hcap : 1 ≤ ctx.in_cap)
    (hst : ∃ tl, st.routing_msg_filter.incoming = msg.key :: tl ∧
        (msg.key :: tl).length ≤ ctx.in_cap) :
    ∃ tl, (handle_filtered_signed_message ctx st msg).1.routing_msg_filter.incoming =
        msg.key :: tl ∧ (msg.key :: tl).length ≤ ctx.in_cap := by
  obtain ⟨mkey, mdst, mcontent⟩ := msg
  unfold handle_filtered_signed_message
  by_cases hloc : ctx.in_location st.chain mdst = true
  · rw [if_pos hloc]
    cases mcontent with
    | GenesisUpdate info =>
      cases hv : ctx.verify st.chain ⟨mkey, mdst, .GenesisUpdate info⟩ with
      | some e =>
        simpa using hst
      | none =>
        simp only
        rw [handle_genesis_update_filter]
        simpa using hst
    | Other p =>
      exact send_to_elders_filter_shape ctx _ _ hcap
  · rw [if_neg hloc]
    exact send_to_elders_filter_shape ctx _ _ hcap

/-- After `handle_signed_message`, the message key is in front of the
incoming filter, within capacity. -/
theorem handle_signed_message_filter_shape (ctx : AdultCtx) (st : Adult) (msg : Msg)
    (hcap : 1 ≤ ctx.in_cap) :
    ∃ tl, (handle_signed_message ctx st msg).1.routing_msg_filter.incoming =
        msg.key :: tl ∧ (msg.key :: tl).length ≤ ctx.in_cap := by
  unfold handle_signed_message
  by_cases hb : (filter_incoming ctx.in_cap st.routing_msg_filter msg).1 = true
  · rw [if_pos hb]
    refine handle_filtered_filter_shape ctx _ msg hcap ?_
    show ∃ tl, (filter_incoming ctx.in_cap st.routing_msg_filter msg).2.incoming =
        msg.key :: tl ∧ (msg.key :: tl).length ≤ ctx.in_cap
    simp only [filter_incoming]
    exact lruInsert_shape ctx.in_cap msg.key _ hcap
  · rw [if_neg hb]
    show ∃ tl, (filter_incoming ctx.in_cap st.routing_msg_filter msg).2.incoming =
        msg.key :: tl ∧ (msg.key :: tl).length ≤ ctx.in_cap
    simp only [filter_incoming]
    exact lruInsert_shape ctx.in_cap msg.key _ hcap

/-- Handling a message whose key is in front of the incoming filter (within
capacity) is a complete no-op reporting `Stay`: no state change, no
backlogging, no forwarding. -/
theorem handle_signed_message_known (ctx : AdultCtx) (st : Adult) (msg : Msg)
    (tl : List Nat)
    (hshape : st.routing_msg_filter.incoming = msg.key :: tl)
    (hlen : (msg.key :: tl).length ≤ ctx.in_cap) :
    handle_signed_message ctx st msg = (st, .ok .Stay, []) := by
  have hnew : (filter_incoming ctx.in_cap st.routing_msg_filter msg).1 = false := by
    simp [filter_incoming, hshape]
  have hfix : (filter_incoming ctx.in_cap st.routing_msg_filter msg).2
      = st.routing_msg_filter := by
    show { st.routing_msg_filter with
        incoming := lruInsert ctx.in_cap msg.key st.routing_msg_filter.incoming }
      = st.routing_msg_filter
    rw [hshape, lruInsert_stable ctx.in_cap msg.key tl hlen]
    rw [← hshape]
  unfold handle_signed_message
  rw [hnew]
  rw [if_neg Bool.false_ne_true, hfix]

/-- C8: processing the same signed routing message twice has the same
observable effect as processing it once — after a first call to
`handle_signed_message`, a second call with the same message is stopped by
the incoming-message filter: it returns `Stay`, leaves the state untouched
(so nothing is backlogged) and forwards to nobody. -/
theorem handle_signed_message_idempotent (ctx : AdultCtx) (st : Adult) (msg : Msg)
    (hcap : 1 ≤ ctx.in_cap) :
    handle_signed_message ctx (handle_signed_message ctx st msg).1 msg =
      ((handle_signed_message ctx st msg).1, .ok .Stay, []) := by
  obtain ⟨tl, hshape, hlen⟩ := handle_signed_message_filter_shape ctx st msg hcap
  exact handle_signed_message_known ctx _ msg tl hshape hlen

/-- C8 witness: a concrete adult forwarding an ordinary message; the second
delivery of the same message is dropped by the filter. -/
theorem handle_signed_message_idempotent_witness :
    handle_signed_message c8ctx (handle_signed_message c8ctx c8st c8msg).1 c8msg =
      ((handle_signed_message c8ctx c8st c8msg).1, .ok .Stay, []) :=
  handle_signed_message_idempotent c8ctx c8st c8msg (by decide)

/-- C10: `handle_genesis_update` returns `Stay` and leaves the state
untouched when the incoming parsec version is not newer; otherwise it
installs the new genesis info, re-creates parsec (advancing the rng it
consumes) and the chain, clears both message backlogs, and leaves every
other field unchanged. -/
theorem handle_genesis_update_frame (ctx : AdultCtx) (st : Adult) (g : GenesisPfxInfo) :
    handle_genesis_update ctx st g =
      (if g.parsec_version ≤ st.gen_pfx_info.parsec_version then st
       else
         { st with
           gen_pfx_info := g,
           parsec_map := (ctx.parsec_init st.parsec_map st.rng st.full_id g).1,
           rng := (ctx.parsec_init st.parsec_map st.rng st.full_id g).2,
           chain := ctx.chain_new st.chain.network_cfg st.full_id g,
           routing_msg_backlog := [],
           direct_msg_backlog := [] },
       Transition.Stay) := by
  by_cases h : g.parsec_version ≤ st.gen_pfx_info.parsec_version
  · simp [handle_genesis_update, h]
  · simp [handle_genesis_update, h]

/- ----------------------------------------------------------------------
Claim theorems: legacy group-key merge.
---------------------------------------------------------------------- -/

/-- A mismatching target anywhere in the list makes the absorb loop bail out
with `None`. -/
theorem absorbOthers_eq_none (tid : Nat) :
    ∀ others : List GetGroupKeyResponse, (∃ o ∈ others, o.target_id ≠ tid) →
      ∀ h : Hist, absorbOthers tid h others = none := by
  intro others
  induction others with
  | nil =>
    intro hmis h
    rcases hmis with ⟨o, ho, _⟩
    cases ho
  | cons o rest ih =>
    intro hmis h
    unfold absorbOthers
    by_cases hid : o.target_id ≠ tid
    · rw [if_pos hid]
    · rw [if_neg hid]
      apply ih
      rcases hmis with ⟨o2, ho2, hne2⟩
      rcases List.mem_cons.mp ho2 with heq | h2
      · subst heq
        exact absurd hne2 hid
      · exact ⟨o2, h2, hne2⟩

/-- C9: `GetGroupKeyResponse::merge` returns `None` whenever some response in
the list has a different `target_id`; and it is not total — with every
`target_id` matching (vacuously) but fewer than `GROUP_SIZE` distinct keys
available, the final `assert_eq!(merged_group.len(), GROUP_SIZE)` panics, as
on two empty responses, for every positive `GROUP_SIZE`. -/
theorem merge_mismatch_none_and_panics :
    (∀ (group_size : Nat) (self : GetGroupKeyResponse)
        (others : List GetGroupKeyResponse),
        (∃ o ∈ others, o.target_id ≠ self.target_id) →
        GetGroupKeyResponse.merge group_size self others = .value none) ∧
    (∀ group_size : Nat, 0 < group_size →
        GetGroupKeyResponse.merge group_size ⟨0, []⟩ [] = .panic) := by
  constructor
  · intro group_size self others hmis
    unfold GetGroupKeyResponse.merge
    rw [absorbOthers_eq_none self.target_id others hmis _]
  · intro group_size hgs
    have h0 : GetGroupKeyResponse.merge group_size ⟨0, []⟩ [] =
        (if ([] : List (Nat × Nat)).length = group_size then
           .value (some { target_id := 0, public_sign_keys := [] })
         else .panic) := rfl
    rw [h0, if_neg (by simp; omega)]

/-- C9 witness: a mismatching response yields `None`; two empty matching
responses panic at `GROUP_SIZE = 13`. -/
theorem merge_mismatch_none_and_panics_witness :
    GetGroupKeyResponse.merge 13 ⟨0, []⟩ [⟨1, []⟩] = .value none ∧
    GetGroupKeyResponse.merge 13 ⟨0, []⟩ [] = .panic :=
  ⟨merge_mismatch_none_and_panics.1 13 ⟨0, []⟩ [⟨1, []⟩] ⟨⟨1, []⟩, by decide, by decide⟩,
   merge_mismatch_none_and_panics.2 13 (by decide)⟩

/- ----------------------------------------------------------------------
Claim theorems: first-node genesis.
---------------------------------------------------------------------- -/

/-- The genesis shared state only adds members: section map and history come
from the proven committee it starts from. -/
theorem create_first_shared_state_sections (bls : BlsCtx) (pk_set sk_share : Nat)
    (elders_info : Proven EldersInfo) (ss : SharedState)
    (h : create_first_shared_state bls pk_set sk_share elders_info = some ss) :
    ss.sections = { our := elders_info, neighbors := [] } ∧
    ss.our_history = [elders_info.proof.public_key] := by
  have aux : ∀ (l : List Peer) (st st' : SharedState),
      List.foldlM (fun (st : SharedState) (peer : Peer) =>
        (create_first_proof bls pk_set sk_share
            (bls.serialize_member (MemberInfo.joined peer MIN_AGE))).map
          (fun _proof =>
            { st with
              our_members :=
                membersUpdate st.our_members (MemberInfo.joined peer MIN_AGE) })) st l =
          some st' →
      st'.sections = st.sections ∧ st'.our_history = st.our_history := by
    intro l
    induction l with
    | nil =>
      intro st st' hfold
      cases hfold
      exact ⟨rfl, rfl⟩
    | cons p rest ih =>
      intro st st' hfold
      rw [List.foldlM_cons] at hfold
      cases hp : create_first_proof bls pk_set sk_share
          (bls.serialize_member (MemberInfo.joined p MIN_AGE)) with
      | none =>
        rw [hp] at hfold
        exact Option.noConfusion hfold
      | some pr =>
        rw [hp] at hfold
        simp only [Option.map_some', Option.bind_eq_bind, Option.some_bind] at hfold
        obtain ⟨h1, h2⟩ := ih _ _ hfold
        exact ⟨h1, h2⟩
  unfold create_first_shared_state at h
  exact aux _ _ _ h

/-- A successful `create_first_elders_info` yields the single-elder committee
under the empty prefix, proven by a first-node proof over its encoding. -/
theorem create_first_elders_info_spec (bls : BlsCtx) (pk_set sk_share : Nat)
    (peer : Peer) (ei : Proven EldersInfo)
    (h : create_first_elders_info bls pk_set sk_share peer = some ei) :
    ei.value = { pfx := [], elders := [(peer.name, peer)] } ∧
    create_first_proof bls pk_set sk_share (bls.serialize_elders ei.value) =
      some ei.proof := by
  unfold create_first_elders_info at h
  cases hp : create_first_proof bls pk_set sk_share
      (bls.serialize_elders { pfx := [], elders := [(peer.name, peer)] }) with
  | none =>
    rw [hp] at h
    exact Option.noConfusion h
  | some pr =>
    rw [hp] at h
    simp only [Option.map_some', Option.some.injEq] at h
    subst h
    exact ⟨rfl, hp⟩

/-- C7: a successful `first_node` call enters the `Approved` state directly,
holding a `Proven<EldersInfo>` whose prefix is the default (empty) prefix and
whose elder set is exactly the node's own peer, its proof created from the
freshly generated key set's share 0 — which is also retained as the section
key share at index 0. -/
theorem first_node_approved (bls : BlsCtx) (keypair connection_info rng : Nat)
    (out : NodeState × List NodeEvent)
    (h : first_node bls keypair connection_info rng = some out) :
    ∃ ss : SharedState,
      out.1 = NodeState.Approved ss
        (some { public_key_set := bls.public_keys (bls.generate_secret_key_set rng 1),
                index := 0,
                secret_key_share :=
                  bls.secret_key_share (bls.generate_secret_key_set rng 1) 0 })
        (bls.name_of keypair) ∧
      ss.sections.our.value.pfx = [] ∧
      ss.sections.our.value.elders =
        [(bls.name_of keypair,
          { name := bls.name_of keypair, addr := connection_info })] ∧
      ss.sections.neighbors = [] ∧
      create_first_proof bls (bls.public_keys (bls.generate_secret_key_set rng 1))
        (bls.secret_key_share (bls.generate_secret_key_set rng 1) 0)
        (bls.serialize_elders ss.sections.our.value) = some ss.sections.our.proof := by
  simp only [first_node] at h
  cases hei : create_first_elders_info bls
      (bls.public_keys (bls.generate_secret_key_set rng 1))
      (bls.secret_key_share (bls.generate_secret_key_set rng 1) 0)
      { name := bls.name_of keypair, addr := connection_info } with
  | none =>
    rw [hei] at h
    simp only [Option.bind_eq_bind, Option.none_bind] at h
    exact Option.noConfusion h
  | some ei =>
    rw [hei] at h
    simp only [Option.bind_eq_bind, Option.some_bind] at h
    cases hss : create_first_shared_state bls
        (bls.public_keys (bls.generate_secret_key_set rng 1))
        (bls.secret_key_share (bls.generate_secret_key_set rng 1) 0) ei with
    | none =>
      rw [hss] at h
      simp only [Option.bind_eq_bind, Option.none_bind] at h
      exact Option.noConfusion h
    | some ss =>
      rw [hss] at h
      simp only [Option.bind_eq_bind, Option.some_bind, Option.some.injEq] at h
      obtain ⟨hsec, hhist⟩ := create_first_shared_state_sections bls _ _ ei ss hss
      obtain ⟨hval, hproof⟩ := create_first_elders_info_spec bls _ _ _ ei hei
      refine ⟨ss, ?_, ?_, ?_, ?_, ?_⟩
      · rw [← h]
      · rw [hsec]
        show ei.value.pfx = []
        rw [hval]
      · rw [hsec]
        show ei.value.elders = _
        rw [hval]
      · rw [hsec]
      · rw [hsec]
        show create_first_proof bls _ _ (bls.serialize_elders ei.value) = some ei.proof
        exact hproof

/-- C7 witness: a concrete instantiation of the collaborators, where the
proof combination succeeds. -/
theorem first_node_approved_witness :
    (first_node c7bls 5 7 0).isSome = true ∧
    (∃ ss : SharedState,
      (NodeState.Approved
        { our_history := [14],
          sections := { our := { value := { pfx := [], elders := [(6, ⟨6, 7⟩)] },
                                 proof := ⟨14, 13⟩ },
                        neighbors := [] },
          our_members := [(6, { peer := ⟨6, 7⟩, age := 4, state := .Joined })] }
        (some ⟨11, 0, 12⟩) 6,
       ([NodeEvent.ConnectedFirst, NodeEvent.PromotedToElder] : List NodeEvent)).1 =
        NodeState.Approved ss
          (some { public_key_set := c7bls.public_keys (c7bls.generate_secret_key_set 0 1),
                  index := 0,
                  secret_key_share :=
                    c7bls.secret_key_share (c7bls.generate_secret_key_set 0 1) 0 })
          (c7bls.name_of 5) ∧
      ss.sections.our.value.pfx = [] ∧
      ss.sections.our.value.elders =
        [(c7bls.name_of 5, { name := c7bls.name_of 5, addr := 7 })] ∧
      ss.sections.neighbors = [] ∧
      create_first_proof c7bls (c7bls.public_keys (c7bls.generate_secret_key_set 0 1))
        (c7bls.secret_key_share (c7bls.generate_secret_key_set 0 1) 0)
        (c7bls.serialize_elders ss.sections.our.value) = some ss.sections.our.proof) :=
  ⟨rfl, first_node_approved c7bls 5 7 0 _ rfl⟩
